import Mathlib

/-
Verification of the scheduling and delivery orchestration engine of the
`botpubl` repository.

The development shallowly embeds the relevant source code:
 * `services/scheduler.py` — job identity (`_generate_job_id`), the durable
   job store operations (`add_job` replace-if-exists, `remove_job`,
   `cancel_job_by_id`, `cancel_all_jobs_for_post`,
   `schedule_one_time_post_publication`, `schedule_message_deletion`), and
   the startup recovery sweep (`reconstruct_and_sync_jobs`).
 * `bot_tasks.py` — the publication orchestrator (`execute_scheduled_post`)
   and the deletion executor (`execute_message_deletion`).
 * `services/telegram_api.py` — `delete_message` outcome mapping.
 * `services/db.py` — the RSS dedup records (`is_rss_item_posted`,
   `mark_rss_item_posted`).

Python strings are embedded as `List Char`; UTC datetimes as `Int`
timestamps; machine-level effects (DB writes, scheduler registrations,
transport calls) are made explicit in returned result records.
-/

/-! ### Decimal rendering of integers (Python `str(n)` inside f-strings) -/

/-- Fuel-driven core of decimal rendering: digits of `n` in order,
empty for `n = 0`.  Fuel `≥ n` suffices. -/
def natDecimalAux : Nat → Nat → List Char
  | _, 0 => []
  | 0, _ + 1 => []
  | fuel + 1, m + 1 =>
    natDecimalAux fuel ((m + 1) / 10) ++ [Nat.digitChar ((m + 1) % 10)]

/-- Digits of `n` (most significant first), empty for `n = 0`. -/
def natDecimalCore (n : Nat) : List Char := natDecimalAux n n

/-- Decimal rendering of a natural number, exactly `str(n)` in Python. -/
def natDecimal (n : Nat) : List Char :=
  if n = 0 then ['0'] else natDecimalCore n

/-- Decimal rendering of an integer, exactly `str(i)` in Python. -/
def intDecimal (i : Int) : List Char :=
  if i < 0 then '-' :: natDecimal i.natAbs else natDecimal i.toNat

theorem natDecimalAux_fuel (f : Nat) : ∀ (g n : Nat), n ≤ f → n ≤ g →
    natDecimalAux f n = natDecimalAux g n := by
  induction f with
  | zero =>
    intro g n hf _
    have hn : n = 0 := Nat.le_zero.mp hf
    subst hn
    cases g <;> rfl
  | succ f ih =>
    intro g n hf hg
    cases n with
    | zero => cases g <;> rfl
    | succ m =>
      cases g with
      | zero => omega
      | succ g =>
        show natDecimalAux f ((m + 1) / 10) ++ _ = natDecimalAux g ((m + 1) / 10) ++ _
        have hdiv : (m + 1) / 10 < m + 1 := Nat.div_lt_self (Nat.succ_pos m) (by omega)
        rw [ih g ((m + 1) / 10) (by omega) (by omega)]

theorem natDecimalCore_succ (n : Nat) (h : n ≠ 0) :
    natDecimalCore n = natDecimalCore (n / 10) ++ [Nat.digitChar (n % 10)] := by
  obtain ⟨m, rfl⟩ := Nat.exists_eq_succ_of_ne_zero h
  show natDecimalAux m ((m + 1) / 10) ++ _ = _
  have hdiv : (m + 1) / 10 < m + 1 := Nat.div_lt_self (Nat.succ_pos m) (by omega)
  rw [natDecimalAux_fuel m ((m + 1) / 10) ((m + 1) / 10) (by omega) le_rfl]
  rfl

theorem natDecimalCore_ne_nil (n : Nat) (h : n ≠ 0) : natDecimalCore n ≠ [] := by
  rw [natDecimalCore_succ n h]
  simp

theorem natDecimalCore_eq_nil {n : Nat} (h : natDecimalCore n = []) : n = 0 := by
  by_contra hne
  exact natDecimalCore_ne_nil n hne h

theorem natDecimalCore_digits (n : Nat) :
    ∀ c ∈ natDecimalCore n, ∃ d, d < 10 ∧ c = Nat.digitChar d := by
  induction n using Nat.strong_induction_on with
  | _ n ih =>
    intro c hc
    by_cases h : n = 0
    · subst h
      simp [natDecimalCore, natDecimalAux] at hc
    · rw [natDecimalCore_succ n h] at hc
      rcases List.mem_append.mp hc with h1 | h2
      · exact ih (n / 10) (Nat.div_lt_self (Nat.pos_of_ne_zero h) (by omega)) c h1
      · refine ⟨n % 10, Nat.mod_lt _ (by omega), ?_⟩
        simpa using h2

theorem digitChar_inj {d1 d2 : Nat} (h1 : d1 < 10) (h2 : d2 < 10)
    (h : Nat.digitChar d1 = Nat.digitChar d2) : d1 = d2 := by
  have key : ∀ a b : Fin 10, Nat.digitChar a.val = Nat.digitChar b.val → a = b := by decide
  have := key ⟨d1, h1⟩ ⟨d2, h2⟩ h
  exact congrArg Fin.val this

theorem append_singleton_inj {x y : List Char} {a b : Char}
    (h : x ++ [a] = y ++ [b]) : x = y ∧ a = b := by
  have h2 := congrArg List.reverse h
  simp at h2
  exact ⟨h2.2, h2.1⟩

theorem natDecimalCore_inj : ∀ (m n : Nat),
    natDecimalCore m = natDecimalCore n → m = n := by
  intro m
  induction m using Nat.strong_induction_on with
  | _ m ih =>
    intro n h
    by_cases hm : m = 0
    · subst hm
      exact (natDecimalCore_eq_nil h.symm).symm
    · by_cases hn : n = 0
      · subst hn
        exact absurd h (natDecimalCore_ne_nil m hm)
      · rw [natDecimalCore_succ m hm, natDecimalCore_succ n hn] at h
        obtain ⟨hpre, hlast⟩ := append_singleton_inj h
        have hmod : m % 10 = n % 10 :=
          digitChar_inj (Nat.mod_lt _ (by omega)) (Nat.mod_lt _ (by omega)) hlast
        have hdivlt : m / 10 < m := Nat.div_lt_self (Nat.pos_of_ne_zero hm) (by omega)
        have hdiv : m / 10 = n / 10 := ih (m / 10) hdivlt (n / 10) hpre
        omega

theorem natDecimal_inj {m n : Nat} (h : natDecimal m = natDecimal n) : m = n := by
  by_cases hm : m = 0 <;> by_cases hn : n = 0
  · omega
  · exfalso
    subst hm
    simp only [natDecimal, if_pos rfl, if_neg hn] at h
    rw [natDecimalCore_succ n hn] at h
    have h0 : ([] : List Char) ++ ['0'] = natDecimalCore (n / 10) ++ [Nat.digitChar (n % 10)] := by
      simpa using h
    obtain ⟨hpre, hd⟩ := append_singleton_inj h0
    have hdiv : n / 10 = 0 := natDecimalCore_eq_nil hpre.symm
    have hmod : n % 10 = 0 := digitChar_inj (Nat.mod_lt _ (by omega)) (by omega) hd.symm
    omega
  · exfalso
    subst hn
    simp only [natDecimal, if_pos rfl, if_neg hm] at h
    rw [natDecimalCore_succ m hm] at h
    have h0 : natDecimalCore (m / 10) ++ [Nat.digitChar (m % 10)] = ([] : List Char) ++ ['0'] := by
      simpa using h
    obtain ⟨hpre, hd⟩ := append_singleton_inj h0
    have hdiv : m / 10 = 0 := natDecimalCore_eq_nil hpre
    have hmod : m % 10 = 0 := digitChar_inj (Nat.mod_lt _ (by omega)) (by omega) hd
    omega
  · simp only [natDecimal, if_neg hm, if_neg hn] at h
    exact natDecimalCore_inj m n h

theorem natDecimal_no_underscore (n : Nat) : ∀ c ∈ natDecimal n, c ≠ '_' := by
  intro c hc
  unfold natDecimal at hc
  split at hc
  · simp at hc
    subst hc
    decide
  · obtain ⟨d, hd, rfl⟩ := natDecimalCore_digits n c hc
    have key : ∀ d : Fin 10, Nat.digitChar d.val ≠ '_' := by decide
    exact key ⟨d, hd⟩

/-! ### Job identity (`services/scheduler.py`, `JobType` and `_generate_job_id`) -/

/-- `class JobType(Enum)` from `services/scheduler.py`. -/
inductive JobType
  | POST_PUBLISH
  | MESSAGE_DELETE
  | RSS_CHECK
deriving DecidableEq

/-- The `.value` string of each `JobType` member. -/
def JobType.value : JobType → List Char
  | .POST_PUBLISH => ['P', 'O', 'S', 'T', '_', 'P', 'U', 'B', 'L', 'I', 'S', 'H']
  | .MESSAGE_DELETE => ['M', 'E', 'S', 'S', 'A', 'G', 'E', '_', 'D', 'E', 'L', 'E', 'T', 'E']
  | .RSS_CHECK => ['R', 'S', 'S', '_', 'C', 'H', 'E', 'C', 'K']

/-- The per-character effect of
`str(sub).replace(':', '_').replace('-', '_').replace('.', '_')`. -/
def sanitizeChar (c : Char) : Char :=
  if c = ':' then '_' else if c = '-' then '_' else if c = '.' then '_' else c

/-- `_generate_job_id` from `services/scheduler.py`:
`f"{job_type.value}_{entity_id}"`, with the sanitized sub-identifier
(truncated past 50 characters) appended after `'_'` when present. -/
def _generate_job_id (job_type : JobType) (entity_id : Nat)
    (sub_identifier : Option (List Char) := none) : List Char :=
  let base_id := job_type.value ++ '_' :: natDecimal entity_id
  match sub_identifier with
  | none => base_id
  | some sub =>
    let sanitized := sub.map sanitizeChar
    let sub_id_str := if 50 < sanitized.length then sanitized.take 50 else sanitized
    base_id ++ '_' :: sub_id_str

/-- Sub-identifiers on which sanitization and truncation act as the
identity: no character is rewritten and the length cap is not hit. -/
def goodSubIdentifier : Option (List Char) → Bool
  | none => true
  | some sub => decide (sub.map sanitizeChar = sub) && decide (sub.length ≤ 50)

theorem jobType_value_split (k1 k2 : JobType) (r1 r2 : List Char)
    (h : k1.value ++ r1 = k2.value ++ r2) : k1 = k2 ∧ r1 = r2 := by
  cases k1 <;> cases k2 <;> simp_all [JobType.value]

theorem underscore_split (a1 : List Char) : ∀ (a2 b1 b2 : List Char),
    (∀ c ∈ a1, c ≠ '_') → (∀ c ∈ a2, c ≠ '_') →
    (b1 = [] ∨ ∃ t, b1 = '_' :: t) → (b2 = [] ∨ ∃ t, b2 = '_' :: t) →
    a1 ++ b1 = a2 ++ b2 → a1 = a2 ∧ b1 = b2 := by
  induction a1 with
  | nil =>
    intro a2 b1 b2 _ h2 hb1 _ heq
    cases a2 with
    | nil => exact ⟨rfl, by simpa using heq⟩
    | cons d a2' =>
      rcases hb1 with rfl | ⟨t, rfl⟩
      · simp at heq
      · exfalso
        have hd : '_' = d := by
          have := heq
          simp only [List.nil_append, List.cons_append] at this
          exact (List.cons.injEq _ _ _ _ ▸ this).1
        exact h2 d (by simp) hd.symm
  | cons c a1' ih =>
    intro a2 b1 b2 h1 h2 hb1 hb2 heq
    cases a2 with
    | nil =>
      rcases hb2 with rfl | ⟨t, rfl⟩
      · simp at heq
      · exfalso
        have hc : c = '_' := by
          simp only [List.cons_append, List.nil_append] at heq
          exact (List.cons.injEq _ _ _ _ ▸ heq).1
        exact h1 c (by simp) hc
    | cons d a2' =>
      simp only [List.cons_append, List.cons.injEq] at heq
      obtain ⟨hcd, hrest⟩ := heq
      obtain ⟨ha, hb⟩ := ih a2' b1 b2 (fun x hx => h1 x (by simp [hx]))
        (fun x hx => h2 x (by simp [hx])) hb1 hb2 hrest
      exact ⟨by rw [hcd, ha], hb⟩

/-- Full injectivity of `_generate_job_id` on sub-identifiers left fixed by
sanitization and truncation. -/
theorem generate_job_id_inj (k1 k2 : JobType) (e1 e2 : Nat)
    (s1 s2 : Option (List Char))
    (hg1 : goodSubIdentifier s1 = true) (hg2 : goodSubIdentifier s2 = true)
    (h : _generate_job_id k1 e1 s1 = _generate_job_id k2 e2 s2) :
    k1 = k2 ∧ e1 = e2 ∧ s1 = s2 := by
  have tailEq : ∀ (s : Option (List Char)), goodSubIdentifier s = true →
      ∀ k e, _generate_job_id k e s =
        k.value ++ '_' :: (natDecimal e ++ (match s with
          | none => []
          | some sub => '_' :: sub)) := by
    intro s hs k e
    match s with
    | none => simp [_generate_job_id]
    | some sub =>
      simp only [goodSubIdentifier, Bool.and_eq_true, decide_eq_true_eq] at hs
      simp [_generate_job_id, hs.1, Nat.not_lt.mpr hs.2, List.append_assoc]
  rw [tailEq s1 hg1 k1 e1, tailEq s2 hg2 k2 e2] at h
  obtain ⟨hk, hrest⟩ := jobType_value_split k1 k2 _ _ h
  have hrest2 : natDecimal e1 ++ _ = natDecimal e2 ++ _ := List.cons_injective hrest
  obtain ⟨hdig, htail⟩ := underscore_split (natDecimal e1) (natDecimal e2) _ _
    (natDecimal_no_underscore e1) (natDecimal_no_underscore e2)
    (by cases s1 <;> simp) (by cases s2 <;> simp) hrest2
  refine ⟨hk, natDecimal_inj hdig, ?_⟩
  cases s1 <;> cases s2 <;> simp_all

/-! ### Durable job store (`services/scheduler.py` store operations) -/

/-- Cron parameter dictionaries (`{'hour': '10', ...}`), kept abstract as
association lists of strings. -/
abbrev CronParams := List (List Char × List Char)

/-- APScheduler trigger specifications used by the source:
`DateTrigger`, `CronTrigger`, `IntervalTrigger`. -/
inductive Trigger
  | date (run_date : Int)
  | cron (params : CronParams) (start_date : Option Int) (end_date : Option Int)
  | interval (minutes : Int)
deriving DecidableEq

/-- A persisted job: its string id and trigger. -/
structure Job where
  id : List Char
  trigger : Trigger
deriving DecidableEq

/-- The durable job store, keyed by `Job.id`. -/
abbrev JobStore := List Job

/-- `scheduler.add_job(..., id=job_id, replace_existing=True)`: any entry
with the same id is discarded and the new job is stored. -/
def add_job (store : JobStore) (j : Job) : JobStore :=
  store.filter (fun x => decide (x.id ≠ j.id)) ++ [j]

/-- `scheduler.remove_job(job_id)`: removes the entry, `none` models the
`JobLookupError` raised when no entry with that id exists. -/
def remove_job (store : JobStore) (job_id : List Char) : Option JobStore :=
  if store.any (fun x => decide (x.id = job_id)) then
    some (store.filter (fun x => decide (x.id ≠ job_id)))
  else none

/-- `cancel_job_by_id` from `services/scheduler.py`: removes the job;
a `JobLookupError` is caught and still reported as `True`. -/
def cancel_job_by_id (store : JobStore) (job_id : List Char) : JobStore × Bool :=
  match remove_job store job_id with
  | some store2 => (store2, true)
  | none => (store, true)

/-- `schedule_one_time_post_publication` from `services/scheduler.py`:
adds a `DateTrigger` job under `_generate_job_id(POST_PUBLISH, post_id)`. -/
def schedule_one_time_post_publication (store : JobStore) (post_id : Nat)
    (run_date_utc : Int) : JobStore :=
  add_job store ⟨_generate_job_id JobType.POST_PUBLISH post_id, Trigger.date run_date_utc⟩

/-- `cancel_all_jobs_for_post` from `services/scheduler.py`: cancels only
the publication job; message-deletion jobs are left untouched. -/
def cancel_all_jobs_for_post (store : JobStore) (post_id : Nat) : JobStore :=
  (cancel_job_by_id store (_generate_job_id JobType.POST_PUBLISH post_id)).1

/-- The f-string `f"{chat_id}_{message_id}"` used as deletion-job
sub-identifier. -/
def deletionSubIdentifier (chat_id : Int) (message_id : Nat) : List Char :=
  intDecimal chat_id ++ '_' :: natDecimal message_id

/-- `schedule_message_deletion` from `services/scheduler.py`: registration
is skipped when the deletion time is not strictly in the future; otherwise
one `DateTrigger` job keyed by
`_generate_job_id(MESSAGE_DELETE, post_id, f"{chat_id}_{message_id}")`
is produced. -/
def schedule_message_deletion (now : Int) (post_id : Nat) (chat_id : Int)
    (message_id : Nat) (delete_at_utc : Int) : Option Job :=
  if delete_at_utc ≤ now then none
  else some ⟨_generate_job_id JobType.MESSAGE_DELETE post_id
      (some (deletionSubIdentifier chat_id message_id)), Trigger.date delete_at_utc⟩

/-! ### Post data model (`models/post.py`) -/

/-- `ScheduleTypeEnum` from `models/post.py`. -/
inductive ScheduleType
  | ONE_TIME
  | RECURRING
deriving DecidableEq

/-- `PostStatusEnum` from `models/post.py`. -/
inductive PostStatus
  | DRAFT
  | SCHEDULED
  | SENT
  | ERROR
  | DELETED
  | INVALID
deriving DecidableEq

/-- An entry of the `chat_ids` JSON array: either a value `int(...)`
accepts, or a malformed one (`ValueError`/`TypeError` path). -/
inductive ChatRef
  | valid (chat_id : Int)
  | malformed
deriving DecidableEq

/-- The `Post` row (`models/post.py`), with datetimes as UTC `Int`
timestamps. -/
structure Post where
  id : Nat
  user_id : Nat
  chat_ids : List ChatRef
  text : Option (List Char)
  media_paths : Option (List (List Char))
  schedule_type : ScheduleType
  schedule_params : Option CronParams
  run_date_utc : Option Int
  start_date_utc : Option Int
  end_date_utc : Option Int
  delete_after_seconds : Option Int
  delete_at_utc : Option Int
  status : PostStatus
deriving DecidableEq

/-- The dictionary returned by `content_manager_service.prepare_content`. -/
structure Content where
  text : Option (List Char)
  media_files : Option (List (List Char))
deriving DecidableEq

/-! ### Publication orchestrator (`bot_tasks.execute_scheduled_post`) -/

/-- The collaborators visible to one firing of `execute_scheduled_post`:
the clock, the content-preparation outcome (`none` models the exception
path), the transport outcome per destination (`none` models a raised
`TelegramAPIError`; `some []` a falsy result), and whether registering a
deletion job for a given message raises. -/
structure PublishEnv where
  now : Int
  prepare : Option Content
  send : Int → Content → Option (List Nat)
  registerOk : Int → Nat → Bool

/-- The loop accumulators of `execute_scheduled_post`, plus the observable
actions taken while iterating destinations. -/
structure LoopState where
  sent_to_count : Nat
  failed_to_count : Nat
  successfully_sent_messages : List (Int × Nat)
  send_attempts : List Int
  deletion_jobs : List Job
deriving DecidableEq

/-- `delete_run_date_utc` computation in `execute_scheduled_post`:
`now + delete_after_seconds` when the relative delay is set, otherwise the
stored absolute `delete_at_utc` (or nothing when neither is set). -/
def deletionRunDate (post : Post) (now : Int) : Option Int :=
  match post.delete_after_seconds with
  | some secs => some (now + secs)
  | none => post.delete_at_utc

/-- Whether the not-in-the-future deletion branch is taken: auto-deletion
is configured but the computed time is not strictly in the future.  On
this branch the skip-warning log in `execute_scheduled_post` interpolates
the loop variable `sent_msg`, which that code path never bound, so the
log call raises `UnboundLocalError`; the per-destination handler catches
it and increments `failed_to_count` even though the send succeeded. -/
def deletionWarningRaises (post : Post) (env : PublishEnv) : Bool :=
  match deletionRunDate post env.now with
  | some t => decide (¬ env.now < t)
  | none => false

/-- The deletion jobs registered for the messages just delivered to one
destination: only when the computed deletion time is strictly in the
future, one registration attempt per sent message; an attempt whose
scheduling call raises (`registerOk` false) is caught and dropped. -/
def deletionJobsFor (post : Post) (env : PublishEnv) (chat_id : Int)
    (msgs : List Nat) : List Job :=
  match deletionRunDate post env.now with
  | none => []
  | some t =>
    if env.now < t then
      msgs.filterMap (fun m =>
        if env.registerOk chat_id m then
          schedule_message_deletion env.now post.id chat_id m t
        else none)
    else []

/-- One iteration of the destination loop in `execute_scheduled_post`. -/
def processChat (post : Post) (env : PublishEnv) (content : Content)
    (st : LoopState) (c : ChatRef) : LoopState :=
  match c with
  | ChatRef.malformed =>
    { st with failed_to_count := st.failed_to_count + 1 }
  | ChatRef.valid chat_id =>
    match env.send chat_id content with
    | some (m :: ms) =>
      { st with
        sent_to_count := st.sent_to_count + 1
        failed_to_count := st.failed_to_count +
          (if deletionWarningRaises post env then 1 else 0)
        successfully_sent_messages :=
          st.successfully_sent_messages ++ (m :: ms).map (fun x => (chat_id, x))
        send_attempts := st.send_attempts ++ [chat_id]
        deletion_jobs := st.deletion_jobs ++ deletionJobsFor post env chat_id (m :: ms) }
    | some [] =>
      { st with
        failed_to_count := st.failed_to_count + 1
        send_attempts := st.send_attempts ++ [chat_id] }
    | none =>
      { st with
        failed_to_count := st.failed_to_count + 1
        send_attempts := st.send_attempts ++ [chat_id] }

/-- Everything one firing of `execute_scheduled_post` does: the status it
persists at the end (if any), whether content preparation was invoked,
which destinations `send_post` was called for, the loop counters, the
delivered messages, and the deletion jobs registered. -/
structure FireResult where
  final_write : Option PostStatus
  prep_called : Bool
  send_attempts : List Int
  sent_to_count : Nat
  failed_to_count : Nat
  successfully_sent_messages : List (Int × Nat)
  deletion_jobs : List Job
deriving DecidableEq

/-- The aggregate status computation of `execute_scheduled_post`
(default `ERROR`, then the `if`/`elif` chain over the loop counters). -/
def aggregate_new_status (sent_to_count failed_to_count : Nat)
    (chat_ids : List ChatRef) : PostStatus :=
  if 0 < sent_to_count ∧ failed_to_count = 0 then PostStatus.SENT
  else if 0 < sent_to_count ∧ 0 < failed_to_count then PostStatus.SENT
  else if sent_to_count = 0 ∧ 0 < failed_to_count then PostStatus.ERROR
  else if sent_to_count = 0 ∧ failed_to_count = 0 ∧ chat_ids ≠ [] then
    PostStatus.INVALID
  else PostStatus.ERROR

/-- `execute_scheduled_post` from `bot_tasks.py`, as a function of the
loaded post (`none` models a post id absent from the DB) and the
environment.  Statuses are embedded on the repository's convention of
persisted value strings (`services/db.py` stores and filters the enum
`.value` strings), under which the guard comparison behaves as written
but the skip-log interpolation of `post.status.value` raises
`AttributeError`: the top-level handler catches it and writes `ERROR`
on a best-effort basis, so the non-`SCHEDULED` branch ends in a status
write rather than a silent return. -/
def execute_scheduled_post (post_lookup : Option Post) (env : PublishEnv) : FireResult :=
  match post_lookup with
  | none => ⟨none, false, [], 0, 0, [], []⟩
  | some post =>
    if post.status ≠ PostStatus.SCHEDULED then
      ⟨some PostStatus.ERROR, false, [], 0, 0, [], []⟩
    else if post.chat_ids = [] then ⟨some PostStatus.INVALID, false, [], 0, 0, [], []⟩
    else
      match env.prepare with
      | none => ⟨some PostStatus.ERROR, true, [], 0, 0, [], []⟩
      | some content =>
        let st := post.chat_ids.foldl (processChat post env content) ⟨0, 0, [], [], []⟩
        ⟨some (aggregate_new_status st.sent_to_count st.failed_to_count post.chat_ids),
          true, st.send_attempts, st.sent_to_count, st.failed_to_count,
          st.successfully_sent_messages, st.deletion_jobs⟩

/-! ### Characterization of the destination loop -/

/-- A destination on which delivery succeeds: a well-formed id for which
the transport returns a non-empty message list. -/
def chatSendSucceeds (env : PublishEnv) (content : Content) : ChatRef → Bool
  | ChatRef.malformed => false
  | ChatRef.valid chat_id =>
    match env.send chat_id content with
    | some (_ :: _) => true
    | _ => false

/-- The `(chat_id, message_id)` pairs delivered to one destination. -/
def chatDelivered (env : PublishEnv) (content : Content) : ChatRef → List (Int × Nat)
  | ChatRef.malformed => []
  | ChatRef.valid chat_id =>
    match env.send chat_id content with
    | some (m :: ms) => (m :: ms).map (fun x => (chat_id, x))
    | _ => []

/-- The deletion jobs registered while handling one destination. -/
def chatDeletions (post : Post) (env : PublishEnv) (content : Content) :
    ChatRef → List Job
  | ChatRef.malformed => []
  | ChatRef.valid chat_id =>
    match env.send chat_id content with
    | some (m :: ms) => deletionJobsFor post env chat_id (m :: ms)
    | _ => []

/-- The `send_post` invocations made for one destination entry. -/
def chatAttempt : ChatRef → List Int
  | ChatRef.malformed => []
  | ChatRef.valid chat_id => [chat_id]

theorem publishLoop_spec (post : Post) (env : PublishEnv) (content : Content) :
    ∀ (chats : List ChatRef) (st : LoopState),
      chats.foldl (processChat post env content) st =
        ⟨st.sent_to_count + chats.countP (chatSendSucceeds env content),
          st.failed_to_count + chats.countP (fun c => !chatSendSucceeds env content c) +
            (if deletionWarningRaises post env then
              chats.countP (chatSendSucceeds env content) else 0),
          st.successfully_sent_messages ++ chats.flatMap (chatDelivered env content),
          st.send_attempts ++ chats.flatMap chatAttempt,
          st.deletion_jobs ++ chats.flatMap (chatDeletions post env content)⟩ := by
  intro chats
  induction chats with
  | nil => intro st; simp
  | cons c rest ih =>
    intro st
    rw [List.foldl_cons, ih]
    cases c with
    | malformed =>
      cases hflag : deletionWarningRaises post env <;>
        simp [processChat, chatSendSucceeds, chatDelivered, chatDeletions, chatAttempt,
          List.countP_cons, LoopState.mk.injEq, hflag] <;> omega
    | valid chat_id =>
      cases hsend : env.send chat_id content with
      | none =>
        cases hflag : deletionWarningRaises post env <;>
          simp [processChat, hsend, chatSendSucceeds, chatDelivered, chatDeletions,
            chatAttempt, List.countP_cons, LoopState.mk.injEq, hflag] <;> omega
      | some msgs =>
        cases msgs with
        | nil =>
          cases hflag : deletionWarningRaises post env <;>
            simp [processChat, hsend, chatSendSucceeds, chatDelivered, chatDeletions,
              chatAttempt, List.countP_cons, LoopState.mk.injEq, hflag] <;> omega
        | cons m ms =>
          cases hflag : deletionWarningRaises post env <;>
            simp [processChat, hsend, chatSendSucceeds, chatDelivered, chatDeletions,
              chatAttempt, List.countP_cons, LoopState.mk.injEq, hflag] <;> omega

/-! ### Recovery sweep (`services/scheduler.py`, `reconstruct_and_sync_jobs`) -/

/-- A `db_service.update_post_status(post_id, status)` call issued during
the sweep. -/
abbrev StatusWrite := Nat × PostStatus

/-- Handling of a single post inside the sweep loop of
`reconstruct_and_sync_jobs`: the jobs registered and the status writes
issued for it.  `ONE_TIME` posts are scheduled only when the stored run
time is strictly in the future, otherwise marked `INVALID` (when still
`SCHEDULED`); `RECURRING` posts need truthy cron parameters and an end
time not in the past. -/
def reconstructPost (now : Int) (post : Post) : List Job × List StatusWrite :=
  let invalid_write : List StatusWrite :=
    if post.status = PostStatus.SCHEDULED then [(post.id, PostStatus.INVALID)] else []
  match post.schedule_type with
  | ScheduleType.ONE_TIME =>
    match post.run_date_utc with
    | some run_date =>
      if now < run_date then
        ([⟨_generate_job_id JobType.POST_PUBLISH post.id, Trigger.date run_date⟩], [])
      else ([], invalid_write)
    | none => ([], invalid_write)
  | ScheduleType.RECURRING =>
    match post.schedule_params with
    | some (p :: ps) =>
      match post.end_date_utc with
      | some end_date =>
        if end_date ≤ now then ([], invalid_write)
        else
          ([⟨_generate_job_id JobType.POST_PUBLISH post.id,
              Trigger.cron (p :: ps) post.start_date_utc (some end_date)⟩], [])
      | none =>
        ([⟨_generate_job_id JobType.POST_PUBLISH post.id,
            Trigger.cron (p :: ps) post.start_date_utc none⟩], [])
    | _ => ([], invalid_write)

/-- The post part of `reconstruct_and_sync_jobs`: every loaded post is
processed independently; jobs and status writes accumulate in order. -/
def reconstruct_and_sync_jobs (now : Int) : List Post → List Job × List StatusWrite
  | [] => ([], [])
  | post :: rest =>
    let r := reconstructPost now post
    let rs := reconstruct_and_sync_jobs now rest
    (r.1 ++ rs.1, r.2 ++ rs.2)

theorem reconstructPost_job_ids (now : Int) (post : Post) :
    ∀ j ∈ (reconstructPost now post).1,
      j.id = _generate_job_id JobType.POST_PUBLISH post.id := by
  obtain ⟨pid, uid, chats, tx, mp, stype, sparams, rdate, sdate, edate, das, dau, pstatus⟩ := post
  intro j hj
  cases stype with
  | ONE_TIME =>
    cases rdate with
    | some t =>
      by_cases h : now < t
      · simp [reconstructPost, h] at hj
        simp [hj]
      · simp [reconstructPost, h] at hj
    | none => simp [reconstructPost] at hj
  | RECURRING =>
    cases sparams with
    | some params =>
      cases params with
      | nil => simp [reconstructPost] at hj
      | cons p ps =>
        cases edate with
        | some e =>
          by_cases h : e ≤ now
          · simp [reconstructPost, h] at hj
          · simp [reconstructPost, h] at hj
            simp [hj]
        | none =>
          simp [reconstructPost] at hj
          simp [hj]
    | none => simp [reconstructPost] at hj

theorem pub_job_id_inj {a b : Nat}
    (h : _generate_job_id JobType.POST_PUBLISH a = _generate_job_id JobType.POST_PUBLISH b) :
    a = b :=
  (generate_job_id_inj JobType.POST_PUBLISH JobType.POST_PUBLISH a b none none rfl rfl h).2.1

theorem sweep_jobs_countP (now : Int) (pred : Job → Bool) :
    ∀ posts : List Post,
      ((reconstruct_and_sync_jobs now posts).1.countP pred) =
        (posts.map (fun p => (reconstructPost now p).1.countP pred)).sum := by
  intro posts
  induction posts with
  | nil => rfl
  | cons p rest ih =>
    simp [reconstruct_and_sync_jobs, List.countP_append, ih]

theorem sweep_writes_mem (now : Int) (posts : List Post) (w : StatusWrite) :
    w ∈ (reconstruct_and_sync_jobs now posts).2 ↔
      ∃ p ∈ posts, w ∈ (reconstructPost now p).2 := by
  induction posts with
  | nil => simp [reconstruct_and_sync_jobs]
  | cons p rest ih =>
    simp [reconstruct_and_sync_jobs, ih, List.mem_append]

/-! ### RSS dedup records (`services/db.py`) and feed polling -/

/-- The `RssItem` row (`models/rss_item.py`), datetimes as `Int`. -/
structure RssItem where
  feed_id : Nat
  item_guid : List Char
  published_at : Option Int
  is_posted : Bool
  created_at : Int
deriving DecidableEq

/-- The `rss_items` table. -/
abbrev RssDb := List RssItem

/-- `is_rss_item_posted` from `services/db.py`: the `EXISTS` query over
`(feed_id, item_guid, is_posted == True)`. -/
def is_rss_item_posted (db : RssDb) (feed_id : Nat) (item_guid : List Char) : Bool :=
  db.any (fun r =>
    decide (r.feed_id = feed_id) && decide (r.item_guid = item_guid) && r.is_posted)

/-- The update branch of `mark_rss_item_posted`: the first row matching
`(feed_id, item_guid)` gets `is_posted := True`. -/
def updateFirstPosted : RssDb → Nat → List Char → RssDb
  | [], _, _ => []
  | r :: rs, feed_id, item_guid =>
    if r.feed_id = feed_id ∧ r.item_guid = item_guid then
      { r with is_posted := true } :: rs
    else r :: updateFirstPosted rs feed_id item_guid

/-- `mark_rss_item_posted` from `services/db.py`: update the existing
`(feed_id, item_guid)` row to posted, or insert a fresh posted row. -/
def mark_rss_item_posted (db : RssDb) (feed_id : Nat) (item_guid : List Char)
    (published_at : Option Int) (now : Int) : RssDb :=
  if db.any (fun r => decide (r.feed_id = feed_id) && decide (r.item_guid = item_guid)) then
    updateFirstPosted db feed_id item_guid
  else
    db ++ [⟨feed_id, item_guid, published_at, true, now⟩]

/-- One fetched feed entry: its stable identity and published time. -/
structure FeedItem where
  identity : List Char
  published : Option Int
deriving DecidableEq

/-- The feed configuration the poll loop reads. -/
structure Feed where
  id : Nat
  destinations : List Int
  keyword_filters : List (List Char)
deriving DecidableEq

/-- Outcome of one poll: the table afterwards, the count of delivered
items, and the identities for which delivery was attempted. -/
structure FeedPollResult where
  db : RssDb
  published_count : Nat
  attempted : List (List Char)
deriving DecidableEq

/-- Modelled from the spec: the feed-polling service (`services/rss.py`,
whose `process_single_feed` is called from `bot_tasks.execute_rss_feed_check`)
is not among the provided source files.  Following spec §4.4: items are
handled in source order; an item already recorded as posted is skipped, an
item failing the feed's keyword filter (when filters exist) is skipped;
otherwise delivery is attempted to all destinations and the item is
recorded as posted (via `mark_rss_item_posted`) exactly when at least one
destination delivery succeeds. -/
def feedPollStep (feed : Feed) (send : Int → List Char → Bool)
    (matchesFilter : FeedItem → Bool) (now : Int)
    (acc : FeedPollResult) (item : FeedItem) : FeedPollResult :=
  if is_rss_item_posted acc.db feed.id item.identity then acc
  else if feed.keyword_filters ≠ [] ∧ ¬ matchesFilter item then acc
  else
    let successes := feed.destinations.countP (fun d => send d item.identity)
    let acc2 := { acc with attempted := acc.attempted ++ [item.identity] }
    if 0 < successes then
      { acc2 with
        db := mark_rss_item_posted acc2.db feed.id item.identity item.published now
        published_count := acc2.published_count + 1 }
    else acc2

/-- Modelled from the spec: the whole poll of one feed — the items are
handled in source order starting from the stored table. -/
def process_single_feed (db : RssDb) (feed : Feed) (items : List FeedItem)
    (send : Int → List Char → Bool) (matchesFilter : FeedItem → Bool) (now : Int) :
    FeedPollResult :=
  items.foldl (feedPollStep feed send matchesFilter now) ⟨db, 0, []⟩

/-! ### Deletion orchestrator (`services/telegram_api.py`, `bot_tasks.py`) -/

/-- How the transport call `bot.delete_message` can end, following the
exception ladder in `services/telegram_api.delete_message`. -/
inductive DeleteApiOutcome
  | deleted
  | messageToDeleteNotFound
  | messageCantBeDeleted
  | apiError
  | unexpectedError
deriving DecidableEq

/-- `delete_message` from `services/telegram_api.py`: `True` on success
and on "message not found / already deleted", `False` on permission
failures (`MessageCantBeDeleted`) and on any other error. -/
def delete_message (outcome : DeleteApiOutcome) : Bool :=
  match outcome with
  | DeleteApiOutcome.deleted => true
  | DeleteApiOutcome.messageToDeleteNotFound => true
  | DeleteApiOutcome.messageCantBeDeleted => false
  | DeleteApiOutcome.apiError => false
  | DeleteApiOutcome.unexpectedError => false

/-- `execute_message_deletion` from `bot_tasks.py`: it only invokes the
transport deletion; it never re-registers a job, so the job store is
returned unchanged alongside the transport result. -/
def execute_message_deletion (store : JobStore) (outcome : DeleteApiOutcome) :
    JobStore × Bool :=
  (store, delete_message outcome)

/-! ### Helper lemmas about the job store -/

theorem cancel_job_by_id_snd (store : JobStore) (job_id : List Char) :
    (cancel_job_by_id store job_id).2 = true := by
  unfold cancel_job_by_id
  cases remove_job store job_id <;> rfl

theorem cancel_job_by_id_mem (store : JobStore) (job_id : List Char) (j : Job)
    (hj : j ∈ store) :
    (j ∈ (cancel_job_by_id store job_id).1 ↔ j.id ≠ job_id) := by
  unfold cancel_job_by_id remove_job
  by_cases hany : store.any (fun x => decide (x.id = job_id)) = true
  · simp [hany, List.mem_filter, hj]
  · rw [Bool.not_eq_true] at hany
    have hall := List.any_eq_false.mp hany j hj
    simp only [decide_eq_true_eq] at hall
    simp [hany, hj, hall]

theorem cancel_job_by_id_subset (store : JobStore) (job_id : List Char) :
    ∀ j ∈ (cancel_job_by_id store job_id).1, j ∈ store := by
  intro j hj
  unfold cancel_job_by_id remove_job at hj
  by_cases hany : store.any (fun x => decide (x.id = job_id)) = true
  · simp [hany, List.mem_filter] at hj
    exact hj.1
  · rw [Bool.not_eq_true] at hany
    simpa [hany] using hj

theorem message_delete_id_ne_pub_id (p1 p2 : Nat) (sub : List Char) :
    _generate_job_id JobType.MESSAGE_DELETE p1 (some sub) ≠
      _generate_job_id JobType.POST_PUBLISH p2 := by
  intro h
  exact absurd (jobType_value_split JobType.MESSAGE_DELETE JobType.POST_PUBLISH _ _
    (by simpa [_generate_job_id] using h)).1 (by decide)

/-! ### C7–C10 claim theorems -/

/-- C7: the deletion orchestrator's retraction reports success when the
transport says the target message was not found / already deleted
(idempotent), and reports failure — without re-registering any job — on a
permission error (`MessageCantBeDeleted`) or any other transport error. -/
theorem delete_message_outcomes :
    delete_message DeleteApiOutcome.messageToDeleteNotFound = true ∧
    delete_message DeleteApiOutcome.deleted = true ∧
    delete_message DeleteApiOutcome.messageCantBeDeleted = false ∧
    delete_message DeleteApiOutcome.apiError = false ∧
    delete_message DeleteApiOutcome.unexpectedError = false ∧
    ∀ (store : JobStore) (outcome : DeleteApiOutcome),
      (execute_message_deletion store outcome).1 = store ∧
      (execute_message_deletion store outcome).2 = delete_message outcome :=
  ⟨rfl, rfl, rfl, rfl, rfl, fun _ _ => ⟨rfl, rfl⟩⟩

/-- C8: a firing whose post has an empty destination list persists
`INVALID` and performs no content preparation and no transport send. -/
theorem exec_post_empty_destinations (post : Post) (env : PublishEnv)
    (hstatus : post.status = PostStatus.SCHEDULED) (hempty : post.chat_ids = []) :
    execute_scheduled_post (some post) env =
      ⟨some PostStatus.INVALID, false, [], 0, 0, [], []⟩ := by
  simp [execute_scheduled_post, hstatus, hempty]

/-- C9: adding a job and then cancelling its id leaves the store with no
entry under that id (and the cancellation reports success); cancelling an
id with no entry leaves the store unchanged and still reports success
instead of raising. -/
theorem schedule_cancel_roundtrip :
    (∀ (store : JobStore) (j : Job),
      ((cancel_job_by_id (add_job store j) j.id).1.all
          (fun x => decide (x.id ≠ j.id)) = true) ∧
      (cancel_job_by_id (add_job store j) j.id).2 = true) ∧
    (∀ (store : JobStore) (job_id : List Char),
      store.all (fun x => decide (x.id ≠ job_id)) = true →
      cancel_job_by_id store job_id = (store, true)) := by
  constructor
  · intro store j
    refine ⟨?_, cancel_job_by_id_snd _ _⟩
    have hmem : j ∈ add_job store j := by simp [add_job]
    have hany : (add_job store j).any (fun x => decide (x.id = j.id)) = true :=
      List.any_eq_true.mpr ⟨j, hmem, by simp⟩
    rw [List.all_eq_true]
    intro x hx
    unfold cancel_job_by_id remove_job at hx
    simp only [hany, if_true] at hx
    have := List.mem_filter.mp hx
    exact this.2
  · intro store job_id h
    have hany : store.any (fun x => decide (x.id = job_id)) = false := by
      rw [List.any_eq_false]
      intro x hx
      have := List.all_eq_true.mp h x hx
      simpa using this
    simp [cancel_job_by_id, remove_job, hany]

/-- C9 witness: cancelling an id absent from the empty store is a no-op
that reports success. -/
theorem schedule_cancel_roundtrip_witness :
    cancel_job_by_id [] ['a'] = ([], true) :=
  schedule_cancel_roundtrip.2 [] ['a'] (by decide)

/-- C10: cancelling all jobs for a post removes exactly the entries whose
id is the post's publish-job id; every message-deletion job in the store
(whatever post, destination, and message it belongs to) survives. -/
theorem cancel_all_jobs_frame (store : JobStore) (post_id : Nat) :
    (∀ j ∈ store, (j ∈ cancel_all_jobs_for_post store post_id ↔
      j.id ≠ _generate_job_id JobType.POST_PUBLISH post_id)) ∧
    (∀ j ∈ cancel_all_jobs_for_post store post_id, j ∈ store) ∧
    (∀ j ∈ store, ∀ (p : Nat) (chat_id : Int) (message_id : Nat),
      j.id = _generate_job_id JobType.MESSAGE_DELETE p
        (some (deletionSubIdentifier chat_id message_id)) →
      j ∈ cancel_all_jobs_for_post store post_id) := by
  refine ⟨fun j hj => cancel_job_by_id_mem store _ j hj,
    cancel_job_by_id_subset store _, ?_⟩
  intro j hj p chat_id message_id hid
  show j ∈ (cancel_job_by_id store (_generate_job_id JobType.POST_PUBLISH post_id)).1
  rw [cancel_job_by_id_mem store _ j hj, hid]
  exact message_delete_id_ne_pub_id p post_id _

/-- C10 witness: a concrete message-deletion job survives cancelling the
publish job of the same post. -/
theorem cancel_all_jobs_frame_witness :
    (⟨_generate_job_id JobType.MESSAGE_DELETE 7 (some (deletionSubIdentifier 5 9)),
        Trigger.date 3⟩ : Job) ∈
      cancel_all_jobs_for_post
        [⟨_generate_job_id JobType.MESSAGE_DELETE 7 (some (deletionSubIdentifier 5 9)),
          Trigger.date 3⟩] 7 :=
  (cancel_all_jobs_frame _ 7).2.2 _ (by simp) 7 5 9 rfl

/-! ### Concrete fixtures used by witnesses -/

/-- A sample prepared-content record. -/
def fixtureContent : Content := ⟨some ['h', 'i'], none⟩

/-- A sample post with a 60-second auto-deletion delay. -/
def fixturePost (status : PostStatus) (chats : List ChatRef) : Post :=
  ⟨7, 3, chats, some ['h', 'i'], none, ScheduleType.ONE_TIME, none, some 100, none, none,
    some 60, none, status⟩

/-- An environment where destination 1 delivers one message and every
other destination fails; deletion registration always succeeds. -/
def fixtureEnv : PublishEnv :=
  ⟨0, some fixtureContent, fun chat_id _ => if chat_id = 1 then some [5] else none,
    fun _ _ => true⟩

/-! ### Helper lemmas about the publication orchestrator -/

theorem aggregate_new_status_sent (S F : Nat) (chats : List ChatRef) (h : 0 < S) :
    aggregate_new_status S F chats = PostStatus.SENT := by
  unfold aggregate_new_status
  split_ifs with h1 h2 h3 h4
  · rfl
  · rfl
  · exact absurd h3.1 (by omega)
  · exact absurd h4.1 (by omega)
  · exact absurd ⟨h, Nat.pos_of_ne_zero (fun hf0 => h1 ⟨h, hf0⟩)⟩ h2

theorem aggregate_new_status_error (S F : Nat) (chats : List ChatRef)
    (hS : S = 0) (hF : 0 < F) :
    aggregate_new_status S F chats = PostStatus.ERROR := by
  unfold aggregate_new_status
  split_ifs with h1 h2 h3 h4
  · exact absurd h1.1 (by omega)
  · exact absurd h2.1 (by omega)
  · rfl
  · exact absurd h4.2.1 (by omega)
  · exact absurd ⟨hS, hF⟩ h3

theorem aggregate_new_status_invalid (S F : Nat) (chats : List ChatRef)
    (hS : S = 0) (hF : F = 0) (hne : chats ≠ []) :
    aggregate_new_status S F chats = PostStatus.INVALID := by
  unfold aggregate_new_status
  split_ifs with h1 h2 h3 h4
  · exact absurd h1.1 (by omega)
  · exact absurd h2.1 (by omega)
  · exact absurd h3.2 (by omega)
  · rfl
  · exact absurd ⟨hS, hF, hne⟩ h4

theorem aggregate_new_status_congr (S F1 F2 : Nat) (chats : List ChatRef)
    (h : S = 0 → F1 = F2) :
    aggregate_new_status S F1 chats = aggregate_new_status S F2 chats := by
  by_cases hS : S = 0
  · rw [h hS]
  · have h0 : 0 < S := Nat.pos_of_ne_zero hS
    rw [aggregate_new_status_sent S F1 chats h0, aggregate_new_status_sent S F2 chats h0]

theorem chatSendSucceeds_congr (env env2 : PublishEnv) (content : Content)
    (hsend : env2.send = env.send) :
    chatSendSucceeds env2 content = chatSendSucceeds env content := by
  funext c
  cases c with
  | malformed => rfl
  | valid chat_id => simp [chatSendSucceeds, hsend]

theorem final_write_ignores_register (post : Post) (env env2 : PublishEnv)
    (hprep : env2.prepare = env.prepare) (hsend : env2.send = env.send) :
    (execute_scheduled_post (some post) env2).final_write =
      (execute_scheduled_post (some post) env).final_write := by
  by_cases hstatus : post.status = PostStatus.SCHEDULED
  · by_cases hempty : post.chat_ids = []
    · simp [execute_scheduled_post, hstatus, hempty]
    · cases hp : env.prepare with
      | none =>
        simp [execute_scheduled_post, hstatus, hempty, hp, hprep.trans hp]
      | some content =>
        have hsucc := chatSendSucceeds_congr env env2 content hsend
        have h1 : (execute_scheduled_post (some post) env2).final_write =
            some (aggregate_new_status
              (post.chat_ids.countP (chatSendSucceeds env content))
              (post.chat_ids.countP (fun c => !chatSendSucceeds env content c) +
                (if deletionWarningRaises post env2 then
                  post.chat_ids.countP (chatSendSucceeds env content) else 0))
              post.chat_ids) := by
          simp [execute_scheduled_post, hstatus, hempty, hprep.trans hp,
            publishLoop_spec, hsucc]
        have h2 : (execute_scheduled_post (some post) env).final_write =
            some (aggregate_new_status
              (post.chat_ids.countP (chatSendSucceeds env content))
              (post.chat_ids.countP (fun c => !chatSendSucceeds env content c) +
                (if deletionWarningRaises post env then
                  post.chat_ids.countP (chatSendSucceeds env content) else 0))
              post.chat_ids) := by
          simp [execute_scheduled_post, hstatus, hempty, hp, publishLoop_spec]
        rw [h1, h2]
        exact congrArg some (aggregate_new_status_congr _ _ _ _
          (fun h0 => by rw [h0]; simp))
  · simp [execute_scheduled_post, hstatus]

theorem chatDeletions_eq_filterMap (post : Post) (env : PublishEnv) (content : Content)
    (del_time : Int) (hconf : deletionRunDate post env.now = some del_time)
    (hfut : env.now < del_time) (c : ChatRef) :
    chatDeletions post env content c =
      (chatDelivered env content c).filterMap
        (fun cm => if env.registerOk cm.1 cm.2 then
          some ⟨_generate_job_id JobType.MESSAGE_DELETE post.id
            (some (deletionSubIdentifier cm.1 cm.2)), Trigger.date del_time⟩
        else none) := by
  cases c with
  | malformed => rfl
  | valid chat_id =>
    cases hsend : env.send chat_id content with
    | none => simp [chatDeletions, chatDelivered, hsend]
    | some msgs =>
      cases msgs with
      | nil => simp [chatDeletions, chatDelivered, hsend]
      | cons m ms =>
        simp only [chatDeletions, chatDelivered, hsend]
        rw [List.filterMap_map]
        unfold deletionJobsFor
        rw [hconf]
        simp only [hfut, if_true]
        congr 1
        funext m2
        simp [schedule_message_deletion, not_le.mpr hfut]

theorem chatDeletions_eq_nil (post : Post) (env : PublishEnv) (content : Content)
    (del_time : Int) (hconf : deletionRunDate post env.now = some del_time)
    (hnf : ¬ env.now < del_time) (c : ChatRef) :
    chatDeletions post env content c = [] := by
  cases c with
  | malformed => rfl
  | valid chat_id =>
    cases hsend : env.send chat_id content with
    | none => simp [chatDeletions, hsend]
    | some msgs =>
      cases msgs with
      | nil => simp [chatDeletions, hsend]
      | cons m ms => simp [chatDeletions, hsend, deletionJobsFor, hconf, hnf]

theorem filterMap_flatMap_exchange {α β γ : Type} (l : List α) (g : α → List β)
    (f : β → Option γ) :
    (l.flatMap g).filterMap f = l.flatMap (fun c => (g c).filterMap f) := by
  induction l with
  | nil => rfl
  | cons c rest ih => simp [List.filterMap_append, ih]

/-! ### C1, C3, C4, C8 claim theorems -/

/-- C3 (code divergence at the skip guard): a firing for a post whose
loaded status is not `SCHEDULED` is not side-effect free — the skip log
itself raises on the persisted string status (`post.status.value` on a
`str`) and the top-level handler then writes `ERROR` — though it still
performs no content preparation, no send and no deletion registration; a
`SCHEDULED` post with destinations does proceed past the guard: content
preparation is invoked and, when it succeeds, every well-formed
destination is attempted. -/
theorem exec_post_guard_writes_error (post : Post) (env : PublishEnv) :
    (post.status ≠ PostStatus.SCHEDULED →
      execute_scheduled_post (some post) env =
        ⟨some PostStatus.ERROR, false, [], 0, 0, [], []⟩) ∧
    (post.status = PostStatus.SCHEDULED → post.chat_ids ≠ [] →
      (execute_scheduled_post (some post) env).prep_called = true ∧
      (∀ content, env.prepare = some content →
        (execute_scheduled_post (some post) env).send_attempts =
          post.chat_ids.flatMap chatAttempt)) := by
  constructor
  · intro h
    simp [execute_scheduled_post, h]
  · intro hstatus hne
    cases hp : env.prepare with
    | none =>
      refine ⟨by simp [execute_scheduled_post, hstatus, hne, hp], ?_⟩
      intro content hc
      exact Option.noConfusion hc
    | some c =>
      refine ⟨by simp [execute_scheduled_post, hstatus, hne, hp], ?_⟩
      intro content hc
      injection hc with hcc
      subst hcc
      simp [execute_scheduled_post, hstatus, hne, hp, publishLoop_spec]

/-- C3 witness: at the failing input — a post loaded with status `SENT`,
fired by a stale job — the firing ends in an `ERROR` status write instead
of a silent no-op. -/
theorem exec_post_guard_writes_error_witness :
    execute_scheduled_post (some (fixturePost PostStatus.SENT [ChatRef.valid 1]))
      fixtureEnv = ⟨some PostStatus.ERROR, false, [], 0, 0, [], []⟩ :=
  (exec_post_guard_writes_error (fixturePost PostStatus.SENT [ChatRef.valid 1])
    fixtureEnv).1 (by decide)

/-- C8 witness: a concrete empty-destination firing persists `INVALID`
without preparing content or calling the transport. -/
theorem exec_post_empty_destinations_witness :
    execute_scheduled_post (some (fixturePost PostStatus.SCHEDULED [])) fixtureEnv =
      ⟨some PostStatus.INVALID, false, [], 0, 0, [], []⟩ :=
  exec_post_empty_destinations (fixturePost PostStatus.SCHEDULED []) fixtureEnv rfl rfl

/-- C1: in a firing that reaches the fan-out loop (post loaded and
`SCHEDULED`, destinations non-empty, content prepared), the persisted
status is `SENT` when at least one destination delivery succeeded
(regardless of failures), `ERROR` when no delivery succeeded and at
least one destination failed, and `INVALID` in the defensive branch
where the loop recorded zero successes and zero failures.  The loop's
sent counter is the per-destination success count; its failed counter is
the per-destination failure count plus one spurious increment per
success when the configured deletion time is not in the future (the
skip-warning references the unbound `sent_msg` and raises, and the
per-destination handler counts that as a failure). -/
theorem exec_post_aggregate_status (post : Post) (env : PublishEnv) (content : Content)
    (hstatus : post.status = PostStatus.SCHEDULED) (hne : post.chat_ids ≠ [])
    (hprep : env.prepare = some content) :
    (execute_scheduled_post (some post) env).sent_to_count =
        post.chat_ids.countP (chatSendSucceeds env content) ∧
    (execute_scheduled_post (some post) env).failed_to_count =
        post.chat_ids.countP (fun c => !chatSendSucceeds env content c) +
          (if deletionWarningRaises post env then
            post.chat_ids.countP (chatSendSucceeds env content) else 0) ∧
    (0 < post.chat_ids.countP (chatSendSucceeds env content) →
      (execute_scheduled_post (some post) env).final_write = some PostStatus.SENT) ∧
    (post.chat_ids.countP (chatSendSucceeds env content) = 0 →
      0 < post.chat_ids.countP (fun c => !chatSendSucceeds env content c) →
      (execute_scheduled_post (some post) env).final_write = some PostStatus.ERROR) ∧
    ((execute_scheduled_post (some post) env).sent_to_count = 0 →
      (execute_scheduled_post (some post) env).failed_to_count = 0 →
      (execute_scheduled_post (some post) env).final_write = some PostStatus.INVALID) := by
  have hsc : (execute_scheduled_post (some post) env).sent_to_count =
      post.chat_ids.countP (chatSendSucceeds env content) := by
    simp [execute_scheduled_post, hstatus, hne, hprep, publishLoop_spec]
  have hfc : (execute_scheduled_post (some post) env).failed_to_count =
      post.chat_ids.countP (fun c => !chatSendSucceeds env content c) +
        (if deletionWarningRaises post env then
          post.chat_ids.countP (chatSendSucceeds env content) else 0) := by
    simp [execute_scheduled_post, hstatus, hne, hprep, publishLoop_spec]
  have hfw : (execute_scheduled_post (some post) env).final_write =
      some (aggregate_new_status
        (post.chat_ids.countP (chatSendSucceeds env content))
        (post.chat_ids.countP (fun c => !chatSendSucceeds env content c) +
          (if deletionWarningRaises post env then
            post.chat_ids.countP (chatSendSucceeds env content) else 0))
        post.chat_ids) := by
    simp [execute_scheduled_post, hstatus, hne, hprep, publishLoop_spec]
  refine ⟨hsc, hfc, ?_, ?_, ?_⟩
  · intro h
    rw [hfw, aggregate_new_status_sent _ _ _ h]
  · intro h0 hf
    have hFpos : 0 <
        post.chat_ids.countP (fun c => !chatSendSucceeds env content c) +
          (if deletionWarningRaises post env then
            post.chat_ids.countP (chatSendSucceeds env content) else 0) := by
      omega
    rw [hfw, aggregate_new_status_error _ _ _ h0 hFpos]
  · intro h0 hf0
    rw [hsc] at h0
    rw [hfc] at hf0
    rw [hfw, aggregate_new_status_invalid _ _ _ h0 hf0 hne]

/-- C1 witness: two destinations, one success and one failure, yield
`SENT`. -/
theorem exec_post_aggregate_status_witness :
    (execute_scheduled_post
      (some (fixturePost PostStatus.SCHEDULED [ChatRef.valid 1, ChatRef.valid 2]))
      fixtureEnv).final_write = some PostStatus.SENT :=
  (exec_post_aggregate_status
    (fixturePost PostStatus.SCHEDULED [ChatRef.valid 1, ChatRef.valid 2])
    fixtureEnv fixtureContent rfl (by decide) rfl).2.2.1 (by decide)

/-- C4: with auto-deletion configured (computed deletion time
`del_time`), a firing registers — when `del_time` is strictly in the
future — exactly one deletion job per delivered message whose registration
call does not raise, keyed by destination+message, and registers nothing
when `del_time` is not in the future; whether registrations raise has no
effect on the persisted status. -/
theorem exec_post_deletion_jobs (post : Post) (env : PublishEnv) (content : Content)
    (del_time : Int) (hstatus : post.status = PostStatus.SCHEDULED)
    (hprep : env.prepare = some content)
    (hconf : deletionRunDate post env.now = some del_time) :
    (env.now < del_time →
      (execute_scheduled_post (some post) env).deletion_jobs =
        (execute_scheduled_post (some post) env).successfully_sent_messages.filterMap
          (fun cm => if env.registerOk cm.1 cm.2 then
            some ⟨_generate_job_id JobType.MESSAGE_DELETE post.id
              (some (deletionSubIdentifier cm.1 cm.2)), Trigger.date del_time⟩
          else none)) ∧
    (¬ env.now < del_time →
      (execute_scheduled_post (some post) env).deletion_jobs = []) ∧
    (∀ env2 : PublishEnv, env2.prepare = env.prepare → env2.send = env.send →
      (execute_scheduled_post (some post) env2).final_write =
        (execute_scheduled_post (some post) env).final_write) := by
  refine ⟨?_, ?_, fun env2 h1 h2 => final_write_ignores_register post env env2 h1 h2⟩
  · intro hfut
    by_cases hempty : post.chat_ids = []
    · simp [execute_scheduled_post, hstatus, hempty]
    · have hd : (execute_scheduled_post (some post) env).deletion_jobs =
          post.chat_ids.flatMap (chatDeletions post env content) := by
        simp [execute_scheduled_post, hstatus, hempty, hprep, publishLoop_spec]
      have hm : (execute_scheduled_post (some post) env).successfully_sent_messages =
          post.chat_ids.flatMap (chatDelivered env content) := by
        simp [execute_scheduled_post, hstatus, hempty, hprep, publishLoop_spec]
      rw [hd, hm, filterMap_flatMap_exchange,
        funext (chatDeletions_eq_filterMap post env content del_time hconf hfut)]
  · intro hnf
    by_cases hempty : post.chat_ids = []
    · simp [execute_scheduled_post, hstatus, hempty]
    · have hd : (execute_scheduled_post (some post) env).deletion_jobs =
          post.chat_ids.flatMap (chatDeletions post env content) := by
        simp [execute_scheduled_post, hstatus, hempty, hprep, publishLoop_spec]
      rw [hd, funext (chatDeletions_eq_nil post env content del_time hconf hnf)]
      simp

/-- C4 witness: the concrete two-destination firing registers deletion
jobs exactly for the delivered message. -/
theorem exec_post_deletion_jobs_witness :
    (execute_scheduled_post
      (some (fixturePost PostStatus.SCHEDULED [ChatRef.valid 1, ChatRef.valid 2]))
      fixtureEnv).deletion_jobs =
      (execute_scheduled_post
        (some (fixturePost PostStatus.SCHEDULED [ChatRef.valid 1, ChatRef.valid 2]))
        fixtureEnv).successfully_sent_messages.filterMap
        (fun cm => if fixtureEnv.registerOk cm.1 cm.2 then
          some ⟨_generate_job_id JobType.MESSAGE_DELETE
            (fixturePost PostStatus.SCHEDULED [ChatRef.valid 1, ChatRef.valid 2]).id
            (some (deletionSubIdentifier cm.1 cm.2)), Trigger.date 60⟩
        else none) :=
  (exec_post_deletion_jobs
    (fixturePost PostStatus.SCHEDULED [ChatRef.valid 1, ChatRef.valid 2])
    fixtureEnv fixtureContent 60 rfl rfl (by decide)).1 (by decide)

/-! ### C2: recovery of one-time posts -/

theorem sweep_jobs_mem (now : Int) (posts : List Post) (j : Job) :
    j ∈ (reconstruct_and_sync_jobs now posts).1 ↔
      ∃ p ∈ posts, j ∈ (reconstructPost now p).1 := by
  induction posts with
  | nil => simp [reconstruct_and_sync_jobs]
  | cons q rest ih => simp [reconstruct_and_sync_jobs, ih, List.mem_append]

theorem sweep_count_focus (now : Int) (p : Post) :
    ∀ posts : List Post, p ∈ posts → posts.Pairwise (fun a b => a.id ≠ b.id) →
      (reconstruct_and_sync_jobs now posts).1.countP
        (fun j => decide (j.id = _generate_job_id JobType.POST_PUBLISH p.id)) =
      (reconstructPost now p).1.countP
        (fun j => decide (j.id = _generate_job_id JobType.POST_PUBLISH p.id)) := by
  intro posts
  induction posts with
  | nil => intro hmem _; exact absurd hmem (List.not_mem_nil p)
  | cons q rest ih =>
    intro hmem hpw
    have hpw2 := List.pairwise_cons.mp hpw
    rcases List.mem_cons.mp hmem with heq | hmem2
    · subst heq
      have hz : (reconstruct_and_sync_jobs now rest).1.countP
          (fun j => decide (j.id = _generate_job_id JobType.POST_PUBLISH p.id)) = 0 := by
        rw [List.countP_eq_zero]
        intro j hj
        obtain ⟨q2, hq2mem, hq2⟩ := (sweep_jobs_mem now rest j).mp hj
        have hid := reconstructPost_job_ids now q2 j hq2
        simp only [decide_eq_true_eq]
        intro hjid
        exact hpw2.1 q2 hq2mem (pub_job_id_inj (hid.symm.trans hjid)).symm
      simp [reconstruct_and_sync_jobs, List.countP_append, hz]
    · have hq : (reconstructPost now q).1.countP
          (fun j => decide (j.id = _generate_job_id JobType.POST_PUBLISH p.id)) = 0 := by
        rw [List.countP_eq_zero]
        intro j hj
        have hid := reconstructPost_job_ids now q j hj
        simp only [decide_eq_true_eq]
        intro hjid
        exact hpw2.1 p hmem2 (pub_job_id_inj (hid.symm.trans hjid))
      have hrest := ih hmem2 hpw2.2
      simp [reconstruct_and_sync_jobs, List.countP_append, hq, hrest]

/-- C2: on recovery, a `SCHEDULED` `ONE_TIME` post with run time strictly
in the future gets exactly one registered job under
`_generate_job_id(POST_PUBLISH, post.id)`; with the run time past or
missing, its status is written `INVALID` and no job with its id is
registered. -/
theorem recovery_sweep_one_time (now : Int) (posts : List Post) (p : Post)
    (hmem : p ∈ posts) (hids : posts.Pairwise (fun a b => a.id ≠ b.id))
    (hstatus : p.status = PostStatus.SCHEDULED)
    (htype : p.schedule_type = ScheduleType.ONE_TIME) :
    (∀ t, p.run_date_utc = some t → now < t →
      (reconstruct_and_sync_jobs now posts).1.countP
        (fun j => decide (j.id = _generate_job_id JobType.POST_PUBLISH p.id)) = 1) ∧
    ((p.run_date_utc = none ∨ ∃ t, p.run_date_utc = some t ∧ ¬ now < t) →
      (reconstruct_and_sync_jobs now posts).1.countP
        (fun j => decide (j.id = _generate_job_id JobType.POST_PUBLISH p.id)) = 0 ∧
      (p.id, PostStatus.INVALID) ∈ (reconstruct_and_sync_jobs now posts).2) := by
  have hfocus := sweep_count_focus now p posts hmem hids
  constructor
  · intro t hrd hfut
    rw [hfocus]
    simp [reconstructPost, htype, hrd, hfut]
  · intro hcase
    constructor
    · rw [hfocus]
      rcases hcase with hnone | ⟨t, hrd, hnf⟩
      · simp [reconstructPost, htype, hnone]
      · simp [reconstructPost, htype, hrd, hnf]
    · rw [sweep_writes_mem]
      refine ⟨p, hmem, ?_⟩
      rcases hcase with hnone | ⟨t, hrd, hnf⟩
      · simp [reconstructPost, htype, hnone, hstatus]
      · simp [reconstructPost, htype, hrd, hnf, hstatus]

/-- C2 witness: one future one-time post yields exactly one job with its
publish id. -/
theorem recovery_sweep_one_time_witness :
    (reconstruct_and_sync_jobs 0
      [fixturePost PostStatus.SCHEDULED [ChatRef.valid 1]]).1.countP
      (fun j => decide (j.id = _generate_job_id JobType.POST_PUBLISH
        (fixturePost PostStatus.SCHEDULED [ChatRef.valid 1]).id)) = 1 :=
  (recovery_sweep_one_time 0 [fixturePost PostStatus.SCHEDULED [ChatRef.valid 1]]
    (fixturePost PostStatus.SCHEDULED [ChatRef.valid 1]) (by simp) (by simp)
    rfl rfl).1 100 rfl (by decide)

/-! ### C6: job identity determinism and injectivity -/

/-- C6 counterexample: sanitization collapses distinct sub-identifier
strings, so the two distinct argument tuples
`(POST_PUBLISH, 5, "7:9")` and `(POST_PUBLISH, 5, "7_9")` yield the same
job id, refuting injectivity over all inputs. -/
theorem job_id_sanitize_collision :
    _generate_job_id JobType.POST_PUBLISH 5 (some ['7', ':', '9']) =
      _generate_job_id JobType.POST_PUBLISH 5 (some ['7', '_', '9']) ∧
    (['7', ':', '9'] : List Char) ≠ ['7', '_', '9'] :=
  ⟨by decide, by decide⟩

/-- C6 (amended): `_generate_job_id` is deterministic (it is a pure
function of its argument tuple) and injective over all argument tuples
whose sub-identifier, when present, is left unchanged by sanitization and
the 50-character cap; in particular the spec's three examples
`(POST_PUBLISH, 5)`, `(MESSAGE_DELETE, 5)`, `(POST_PUBLISH, 5, "7_9")`
yield pairwise distinct ids. -/
theorem job_id_injective_on_sanitized :
    (∀ (k1 k2 : JobType) (e1 e2 : Nat) (s1 s2 : Option (List Char)),
      goodSubIdentifier s1 = true → goodSubIdentifier s2 = true →
      _generate_job_id k1 e1 s1 = _generate_job_id k2 e2 s2 →
      k1 = k2 ∧ e1 = e2 ∧ s1 = s2) ∧
    _generate_job_id JobType.POST_PUBLISH 5 none ≠
      _generate_job_id JobType.MESSAGE_DELETE 5 none ∧
    _generate_job_id JobType.POST_PUBLISH 5 none ≠
      _generate_job_id JobType.POST_PUBLISH 5 (some ['7', '_', '9']) ∧
    _generate_job_id JobType.MESSAGE_DELETE 5 none ≠
      _generate_job_id JobType.POST_PUBLISH 5 (some ['7', '_', '9']) :=
  ⟨generate_job_id_inj, by decide, by decide, by decide⟩

/-- C6 witness: the injectivity part applied at a concrete sanitized
sub-identifier. -/
theorem job_id_injective_on_sanitized_witness :
    JobType.POST_PUBLISH = JobType.POST_PUBLISH ∧ (5 : Nat) = 5 ∧
      (some ['7', '_', '9'] : Option (List Char)) = some ['7', '_', '9'] :=
  job_id_injective_on_sanitized.1 JobType.POST_PUBLISH JobType.POST_PUBLISH 5 5
    (some ['7', '_', '9']) (some ['7', '_', '9']) (by decide) (by decide) (by decide)

/-! ### C5: RSS dedup helper lemmas -/

theorem is_rss_item_posted_iff (db : RssDb) (feed_id : Nat) (item_guid : List Char) :
    is_rss_item_posted db feed_id item_guid = true ↔
      ∃ r ∈ db, r.feed_id = feed_id ∧ r.item_guid = item_guid ∧ r.is_posted = true := by
  simp [is_rss_item_posted, List.any_eq_true, and_assoc]

theorem updateFirst_other (f2 : Nat) (g2 : List Char) (f : Nat) (g : List Char)
    (hne : ¬(f2 = f ∧ g2 = g)) :
    ∀ db : RssDb,
      is_rss_item_posted (updateFirstPosted db f2 g2) f g =
        is_rss_item_posted db f g := by
  intro db
  induction db with
  | nil => rfl
  | cons r rs ih =>
    by_cases hm : r.feed_id = f2 ∧ r.item_guid = g2
    · have hno : ¬(r.feed_id = f ∧ r.item_guid = g) := fun hc =>
        hne ⟨hm.1.symm.trans hc.1, hm.2.symm.trans hc.2⟩
      by_cases h1 : r.feed_id = f
      · by_cases h2 : r.item_guid = g
        · exact absurd ⟨h1, h2⟩ hno
        · have hg : ¬ g2 = g := fun hgg => h2 (hm.2.trans hgg)
          simp [updateFirstPosted, hm, is_rss_item_posted, hg]
      · have hf : ¬ f2 = f := fun hff => h1 (hm.1.trans hff)
        simp [updateFirstPosted, hm, is_rss_item_posted, hf]
    · simp only [updateFirstPosted, hm, if_false]
      simp only [is_rss_item_posted, List.any_cons] at ih ⊢
      rw [ih]

theorem mark_other (db : RssDb) (f2 : Nat) (g2 : List Char) (f : Nat) (g : List Char)
    (pub : Option Int) (now : Int) (hne : ¬(f2 = f ∧ g2 = g)) :
    is_rss_item_posted (mark_rss_item_posted db f2 g2 pub now) f g =
      is_rss_item_posted db f g := by
  unfold mark_rss_item_posted
  split_ifs with h
  · exact updateFirst_other f2 g2 f g hne db
  · by_cases h1 : f2 = f
    · by_cases h2 : g2 = g
      · exact absurd ⟨h1, h2⟩ hne
      · simp [is_rss_item_posted, List.any_append, h2]
    · simp [is_rss_item_posted, List.any_append, h1]

theorem updateFirst_self (f : Nat) (g : List Char) :
    ∀ db : RssDb,
      db.any (fun r => decide (r.feed_id = f) && decide (r.item_guid = g)) = true →
      is_rss_item_posted (updateFirstPosted db f g) f g = true := by
  intro db
  induction db with
  | nil => simp
  | cons r rs ih =>
    intro hany
    by_cases hm : r.feed_id = f ∧ r.item_guid = g
    · simp [updateFirstPosted, hm, is_rss_item_posted, hm.1, hm.2]
    · have hhead : (decide (r.feed_id = f) && decide (r.item_guid = g)) = false := by
        by_cases h1 : r.feed_id = f
        · by_cases h2 : r.item_guid = g
          · exact absurd ⟨h1, h2⟩ hm
          · simp [h1, h2]
        · simp [h1]
      have hrs : rs.any (fun r2 => decide (r2.feed_id = f) && decide (r2.item_guid = g)) =
          true := by
        simp only [List.any_cons, hhead, Bool.false_or] at hany
        exact hany
      have hrec := ih hrs
      simp only [updateFirstPosted, hm, if_false]
      simp only [is_rss_item_posted, List.any_cons] at hrec ⊢
      rw [hrec]
      simp

theorem mark_self (db : RssDb) (f : Nat) (g : List Char) (pub : Option Int) (now : Int) :
    is_rss_item_posted (mark_rss_item_posted db f g pub now) f g = true := by
  unfold mark_rss_item_posted
  split_ifs with h
  · exact updateFirst_self f g db h
  · simp [is_rss_item_posted, List.any_append]

theorem updateFirst_mono (f : Nat) (g : List Char) (f2 : Nat) (g2 : List Char) :
    ∀ db : RssDb,
      is_rss_item_posted db f g = true →
      is_rss_item_posted (updateFirstPosted db f2 g2) f g = true := by
  intro db
  induction db with
  | nil => simp [is_rss_item_posted]
  | cons r rs ih =>
    intro h
    simp only [is_rss_item_posted, List.any_cons, Bool.or_eq_true] at h
    by_cases hm : r.feed_id = f2 ∧ r.item_guid = g2
    · rw [show updateFirstPosted (r :: rs) f2 g2 =
          { r with is_posted := true } :: rs from by simp [updateFirstPosted, hm]]
      simp only [is_rss_item_posted, List.any_cons, Bool.or_eq_true]
      rcases h with hhead | htail
      · left
        simp only [Bool.and_eq_true, decide_eq_true_eq] at hhead ⊢
        exact ⟨⟨hhead.1.1, hhead.1.2⟩, trivial⟩
      · right
        exact htail
    · rw [show updateFirstPosted (r :: rs) f2 g2 =
          r :: updateFirstPosted rs f2 g2 from by simp [updateFirstPosted, hm]]
      simp only [is_rss_item_posted, List.any_cons, Bool.or_eq_true]
      rcases h with hhead | htail
      · left
        exact hhead
      · right
        exact ih htail

theorem mark_mono (db : RssDb) (f : Nat) (g : List Char) (f2 : Nat) (g2 : List Char)
    (pub : Option Int) (now : Int) (h : is_rss_item_posted db f g = true) :
    is_rss_item_posted (mark_rss_item_posted db f2 g2 pub now) f g = true := by
  unfold mark_rss_item_posted
  split_ifs with hc
  · exact updateFirst_mono f g f2 g2 db h
  · simp only [is_rss_item_posted, List.any_append, Bool.or_eq_true]
    left
    exact h

/-! ### C5: feed-poll fold lemmas -/

theorem feedPollStep_db_fail (feed : Feed) (send : Int → List Char → Bool)
    (matchesFilter : FeedItem → Bool) (now : Int) (g : List Char)
    (hfail : ∀ d ∈ feed.destinations, send d g = false)
    (acc : FeedPollResult) (it : FeedItem) :
    is_rss_item_posted (feedPollStep feed send matchesFilter now acc it).db feed.id g =
      is_rss_item_posted acc.db feed.id g := by
  simp only [feedPollStep]
  split_ifs with h1 h2 h3
  · rfl
  · rfl
  · by_cases hid : it.identity = g
    · exfalso
      rw [hid] at h3
      have hz : feed.destinations.countP (fun d => send d g) = 0 :=
        List.countP_eq_zero.mpr (fun d hd => by simp [hfail d hd])
      omega
    · exact mark_other acc.db feed.id it.identity feed.id g it.published now
        (fun hc => hid hc.2)
  · rfl

theorem feedPollStep_db_mono (feed : Feed) (send : Int → List Char → Bool)
    (matchesFilter : FeedItem → Bool) (now : Int) (f : Nat) (g : List Char)
    (acc : FeedPollResult) (it : FeedItem)
    (h : is_rss_item_posted acc.db f g = true) :
    is_rss_item_posted (feedPollStep feed send matchesFilter now acc it).db f g = true := by
  simp only [feedPollStep]
  split_ifs with h1 h2 h3
  · exact h
  · exact h
  · exact mark_mono acc.db f g feed.id it.identity it.published now h
  · exact h

theorem feedPoll_fail_invariant (feed : Feed) (send : Int → List Char → Bool)
    (matchesFilter : FeedItem → Bool) (now : Int) (g : List Char)
    (hfail : ∀ d ∈ feed.destinations, send d g = false) :
    ∀ (items : List FeedItem) (acc : FeedPollResult),
      is_rss_item_posted
          (items.foldl (feedPollStep feed send matchesFilter now) acc).db feed.id g =
        is_rss_item_posted acc.db feed.id g := by
  intro items
  induction items with
  | nil => intro acc; rfl
  | cons it rest ih =>
    intro acc
    rw [List.foldl_cons, ih]
    exact feedPollStep_db_fail feed send matchesFilter now g hfail acc it

theorem feedPoll_posted_mono (feed : Feed) (send : Int → List Char → Bool)
    (matchesFilter : FeedItem → Bool) (now : Int) (f : Nat) (g : List Char) :
    ∀ (items : List FeedItem) (acc : FeedPollResult),
      is_rss_item_posted acc.db f g = true →
      is_rss_item_posted
        (items.foldl (feedPollStep feed send matchesFilter now) acc).db f g = true := by
  intro items
  induction items with
  | nil => intro acc h; exact h
  | cons it rest ih =>
    intro acc h
    rw [List.foldl_cons]
    exact ih _ (feedPollStep_db_mono feed send matchesFilter now f g acc it h)

theorem feedPoll_attempted_mono (feed : Feed) (send : Int → List Char → Bool)
    (matchesFilter : FeedItem → Bool) (now : Int) :
    ∀ (items : List FeedItem) (acc : FeedPollResult) (x : List Char),
      x ∈ acc.attempted →
      x ∈ (items.foldl (feedPollStep feed send matchesFilter now) acc).attempted := by
  intro items
  induction items with
  | nil => intro acc x hx; exact hx
  | cons it rest ih =>
    intro acc x hx
    rw [List.foldl_cons]
    apply ih
    simp only [feedPollStep]
    split_ifs <;> simp [hx]

theorem feedPoll_attempts_item (feed : Feed) (send : Int → List Char → Bool)
    (matchesFilter : FeedItem → Bool) (now : Int) (item : FeedItem)
    (hfail : ∀ d ∈ feed.destinations, send d item.identity = false)
    (hfilter : feed.keyword_filters = [] ∨ matchesFilter item = true) :
    ∀ (items : List FeedItem) (acc : FeedPollResult),
      item ∈ items →
      is_rss_item_posted acc.db feed.id item.identity = false →
      item.identity ∈
        (items.foldl (feedPollStep feed send matchesFilter now) acc).attempted := by
  intro items
  induction items with
  | nil => intro acc hmem _; exact absurd hmem (List.not_mem_nil item)
  | cons it rest ih =>
    intro acc hmem hnp
    rw [List.foldl_cons]
    rcases List.mem_cons.mp hmem with heq | hmem2
    · subst heq
      apply feedPoll_attempted_mono
      have hf2 : ¬(feed.keyword_filters ≠ [] ∧ ¬ matchesFilter item) := by
        rcases hfilter with h | h
        · exact fun hc => hc.1 h
        · exact fun hc => hc.2 h
      simp only [feedPollStep, hnp, Bool.false_eq_true, if_false, hf2]
      split_ifs <;> simp
    · have hstep : is_rss_item_posted
          (feedPollStep feed send matchesFilter now acc it).db feed.id item.identity =
          false := by
        rw [feedPollStep_db_fail feed send matchesFilter now item.identity hfail acc it]
        exact hnp
      exact ih _ hmem2 hstep

theorem feedPoll_records_success (feed : Feed) (send : Int → List Char → Bool)
    (matchesFilter : FeedItem → Bool) (now : Int) (item : FeedItem)
    (hsucc : ∃ d ∈ feed.destinations, send d item.identity = true)
    (hfilter : feed.keyword_filters = [] ∨ matchesFilter item = true) :
    ∀ (items : List FeedItem) (acc : FeedPollResult),
      item ∈ items →
      is_rss_item_posted
        (items.foldl (feedPollStep feed send matchesFilter now) acc).db
        feed.id item.identity = true := by
  intro items
  induction items with
  | nil => intro acc hmem; exact absurd hmem (List.not_mem_nil item)
  | cons it rest ih =>
    intro acc hmem
    rw [List.foldl_cons]
    rcases List.mem_cons.mp hmem with heq | hmem2
    · subst heq
      apply feedPoll_posted_mono
      simp only [feedPollStep]
      split_ifs with h1 h2 h3
      · exact h1
      · rcases hfilter with h | h
        · exact absurd h h2.1
        · exact absurd h h2.2
      · exact mark_self acc.db feed.id item.identity item.published now
      · exfalso
        exact h3 (List.countP_pos_iff.mpr hsucc)
    · exact ih _ hmem2

/-! ### C5 claim theorem -/

/-- C5: the dedup check is true exactly when a `(feed id, identity)`
record exists with the posted flag set; a poll in which an item's
delivery succeeds on no destination leaves the pair unrecorded so a
repeat poll with the same fetch result attempts the item again, while a
delivery succeeding on at least one destination records the pair as
posted. -/
theorem rss_dedup_spec :
    (∀ (db : RssDb) (feed_id : Nat) (item_guid : List Char),
      is_rss_item_posted db feed_id item_guid = true ↔
        ∃ r ∈ db, r.feed_id = feed_id ∧ r.item_guid = item_guid ∧ r.is_posted = true) ∧
    (∀ (db : RssDb) (feed : Feed) (items : List FeedItem)
      (send : Int → List Char → Bool) (matchesFilter : FeedItem → Bool) (now : Int)
      (item : FeedItem), item ∈ items →
      (∀ d ∈ feed.destinations, send d item.identity = false) →
      (feed.keyword_filters = [] ∨ matchesFilter item = true) →
      is_rss_item_posted db feed.id item.identity = false →
      (is_rss_item_posted
          (process_single_feed db feed items send matchesFilter now).db
          feed.id item.identity = false ∧
        item.identity ∈ (process_single_feed
          (process_single_feed db feed items send matchesFilter now).db
          feed items send matchesFilter now).attempted)) ∧
    (∀ (db : RssDb) (feed : Feed) (items : List FeedItem)
      (send : Int → List Char → Bool) (matchesFilter : FeedItem → Bool) (now : Int)
      (item : FeedItem), item ∈ items →
      (∃ d ∈ feed.destinations, send d item.identity = true) →
      (feed.keyword_filters = [] ∨ matchesFilter item = true) →
      is_rss_item_posted
        (process_single_feed db feed items send matchesFilter now).db
        feed.id item.identity = true) := by
  refine ⟨is_rss_item_posted_iff, ?_, ?_⟩
  · intro db feed items send matchesFilter now item hmem hfail hfilter hnp
    have hinv1 : is_rss_item_posted
        (process_single_feed db feed items send matchesFilter now).db
        feed.id item.identity = is_rss_item_posted db feed.id item.identity :=
      feedPoll_fail_invariant feed send matchesFilter now item.identity hfail items _
    refine ⟨hinv1.trans hnp, ?_⟩
    exact feedPoll_attempts_item feed send matchesFilter now item hfail hfilter items
      ⟨(process_single_feed db feed items send matchesFilter now).db, 0, []⟩
      hmem (hinv1.trans hnp)
  · intro db feed items send matchesFilter now item hmem hsucc hfilter
    exact feedPoll_records_success feed send matchesFilter now item hsucc hfilter items
      ⟨db, 0, []⟩ hmem

/-- A one-destination feed with no keyword filters. -/
def fixtureFeed : Feed := ⟨1, [10], []⟩

/-- A single fetched feed entry. -/
def fixtureFeedItem : FeedItem := ⟨['a'], none⟩

/-- C5 witness: a delivery that succeeds records the pair as posted. -/
theorem rss_dedup_spec_witness :
    is_rss_item_posted
      (process_single_feed [] fixtureFeed [fixtureFeedItem] (fun _ _ => true)
        (fun _ => true) 0).db fixtureFeed.id fixtureFeedItem.identity = true :=
  rss_dedup_spec.2.2 [] fixtureFeed [fixtureFeedItem] (fun _ _ => true) (fun _ => true) 0
    fixtureFeedItem (by simp) ⟨10, by simp [fixtureFeed], rfl⟩ (Or.inl rfl)
